import Mathlib

/-!
Shallow embedding of the EVE Planet Viewer core (`src/PlanetViewer.py`):
the classifier `categorize_type`, the SQLite-backed catalog store `EveDB`
(reference-table imports, the transactional fact-table rebuild
`build_planets_from_mapDenormalize`, and the aggregation queries), modelled
over explicit list states.  Machine text is modelled as `String`, SQL NULL
as `Option`, REAL as `ℚ` (exact arithmetic), and the SQLite connection's
open transaction as an explicit `pending` copy of the fact table.
-/

/-- ASCII lower-casing of a character, as done both by Python `str.lower`
and SQLite `LOWER` on the ASCII fragment used throughout this program. -/
def charLower (c : Char) : Char :=
  if 'A' ≤ c ∧ c ≤ 'Z' then Char.ofNat (c.toNat + 32) else c

/-- Lower-case a string character-wise (model of Python `str.lower()` /
SQLite `LOWER`). -/
def lowerStr (s : String) : String :=
  ⟨s.data.map charLower⟩

/-- `needle` occurs as a contiguous sublist of the character list
(model of Python's `needle in hay` substring test). -/
def containsSub (needle : List Char) : List Char → Bool
  | [] => needle.isEmpty
  | c :: rest => needle.isPrefixOf (c :: rest) || containsSub needle rest

/-- Python's `needle in hay` substring containment on strings. -/
def strContains (hay needle : String) : Bool :=
  containsSub needle.data hay.data

/-- `categorize_type` from `PlanetViewer.py` lines 74–96: lower-case the
optional type name (empty string when absent) and test the ten substring
rules in the source's order, falling back to `"Barren"`. -/
def categorize_type (type_name : Option String) : String :=
  let t := lowerStr (type_name.getD "")
  if strContains t "temperate" then "Temperate"
  else if strContains t "ice" then "Ice"
  else if strContains t "gas" then "Gas"
  else if strContains t "oceanic" then "Oceanic"
  else if strContains t "lava" then "Lava"
  else if strContains t "plasma" then "Plasma"
  else if strContains t "storm" then "Storm"
  else if strContains t "shattered" then "Shattered"
  else if strContains t "scorched" then "Scorched Barren"
  else if strContains t "barren" then "Barren"
  else "Barren"

/-- `PLANET_TYPES` from `PlanetViewer.py` lines 40–43, in source order. -/
def PLANET_TYPES : List String :=
  ["Temperate", "Ice", "Gas", "Oceanic", "Lava",
   "Barren", "Storm", "Plasma", "Shattered", "Scorched Barren"]

/-- A row of the `invTypes` reference table (`typeID` primary key,
nullable `groupID` and `typeName`). -/
structure InvType where
  typeID : Int
  groupID : Option Int
  typeName : Option String
deriving DecidableEq

/-- A row of the `planets` fact table (`PlanetViewer.py` schema lines
145–161).  `itemID`, `typeID`, `groupID`, `solarSystemID` are always
populated by the only writer, `build_planets_from_mapDenormalize`; the
remaining columns are nullable.  The SQLite REAL `radius_km` is modelled
with exact rational arithmetic. -/
structure PlanetRow where
  itemID : Int
  typeID : Int
  groupID : Int
  category : String
  typeName : Option String
  itemName : Option String
  solarSystemID : Int
  constellationID : Option Int
  regionID : Option Int
  orbitalID : Option Int
  radius_km : Option ℚ
deriving DecidableEq

/-- A `mapDenormalize.csv` source row after field parsing: each identifier
field holds `some n` when `try_int` succeeds (missing or unparseable text
gives `none`), `radius` likewise via `try_float`, and `orbitalID` is the
result of the source's `orbitalID`-else-`orbitID` fallback. -/
structure SrcRow where
  groupID : Option Int
  itemID : Option Int
  typeID : Option Int
  solarSystemID : Option Int
  constellationID : Option Int
  regionID : Option Int
  orbitalID : Option Int
  radius : Option ℚ
  itemName : Option String
deriving DecidableEq

/-- The in-memory `type_map` built from
`SELECT typeID, groupID, typeName FROM invTypes WHERE groupID = 7`
(lines 271–275): dictionary assignment makes the last matching row win,
and `dict.get` yields the stored (possibly null) `typeName`. -/
def planetTypeMap (inv : List InvType) (t : Int) : Option String :=
  match inv.reverse.find? (fun x => x.groupID == some 7 && x.typeID == t) with
  | some x => x.typeName
  | none => none

/-- Python truthiness of a parsed integer field: `None` and `0` are falsy
(the `if not (itemID and typeID and solarSystemID)` test, line 305). -/
def truthyI : Option Int → Bool
  | none => false
  | some v => v != 0

/-- Per-row processing of `build_planets_from_mapDenormalize`
(lines 292–310): skip unless `groupID` parses to 7; skip when any of
`itemID`, `typeID`, `solarSystemID` is falsy; otherwise classify via the
type map and convert the radius from meters to kilometers. -/
def processRow (tm : Int → Option String) (r : SrcRow) : Option PlanetRow :=
  if r.groupID == some 7 && truthyI r.itemID && truthyI r.typeID &&
      truthyI r.solarSystemID then
    let tn := tm (r.typeID.getD 0)
    some { itemID := r.itemID.getD 0
           typeID := r.typeID.getD 0
           groupID := 7
           category := categorize_type tn
           typeName := tn
           itemName := r.itemName
           solarSystemID := r.solarSystemID.getD 0
           constellationID := r.constellationID
           regionID := r.regionID
           orbitalID := r.orbitalID
           radius_km := r.radius.map (fun m => m / 1000) }
  else none

/-- `INSERT OR REPLACE` into `planets` keyed on the `itemID` primary key:
replace the existing row in place, else append. -/
def upsertPlanet (tbl : List PlanetRow) (p : PlanetRow) : List PlanetRow :=
  if tbl.any (fun q => q.itemID == p.itemID) then
    tbl.map (fun q => if q.itemID == p.itemID then p else q)
  else tbl ++ [p]

/-- The connection state relevant to the fact-table rebuild: the committed
`planets` table, the open transaction's pending copy (`none` when no
transaction is open), and the three PRAGMA settings the rebuild touches. -/
structure RebuildState where
  planets : List PlanetRow
  pending : Option (List PlanetRow)
  sync : Int
  tempStore : Int
  cacheSize : Int
deriving DecidableEq

/-- `BEGIN`: open a transaction whose pending table starts as the
committed one. -/
def beginTx (st : RebuildState) : RebuildState :=
  { st with pending := some st.planets }

/-- `COMMIT`: publish the pending table (a no-op when no transaction is
open, as for the `finally`-block commit after a rollback). -/
def commitTx (st : RebuildState) : RebuildState :=
  { st with planets := st.pending.getD st.planets, pending := none }

/-- `ROLLBACK`: discard the pending table. -/
def rollbackTx (st : RebuildState) : RebuildState :=
  { st with pending := none }

/-- `build_planets_from_mapDenormalize` (lines 268–336) with fault
injection.  The `try` block performs, in order, 3 index drops, one upsert
per accepted source row (batched flushes of `INSERT OR REPLACE` apply the
buffered rows in order, so batching is semantically transparent), 3 index
recreations, and the commit; `failAt = some n` raises an exception just
before elementary step `n` of that sequence, `none` runs to completion.
On an exception the `except` branch rolls back and re-raises; the
`finally` branch always issues a (then no-op) commit and restores the
saved PRAGMA values.  Returns the new state and the Python return /
raise outcome. -/
def rebuildFactTable (st : RebuildState) (inv : List InvType)
    (src : List SrcRow) (failAt : Option Nat) : RebuildState × Except Unit Nat :=
  let origSync := st.sync
  let origTemp := st.tempStore
  let origCache := st.cacheSize
  let tm := planetTypeMap inv
  let st1 : RebuildState := { st with sync := 0, tempStore := 2, cacheSize := -200000 }
  let st2 := beginTx st1
  let accepted := src.filterMap (processRow tm)
  let pend := st2.pending.getD st2.planets
  let outcome : RebuildState × Except Unit Nat :=
    match failAt with
    | none =>
      ({ st2 with pending := some (accepted.foldl upsertPlanet pend) },
        Except.ok accepted.length)
    | some n =>
      if n < 3 then (st2, Except.error ())
      else if n < 3 + accepted.length then
        ({ st2 with pending := some ((accepted.take (n - 3)).foldl upsertPlanet pend) },
          Except.error ())
      else if n < 3 + accepted.length + 3 then
        ({ st2 with pending := some (accepted.foldl upsertPlanet pend) },
          Except.error ())
      else
        ({ st2 with pending := some (accepted.foldl upsertPlanet pend) },
          Except.ok accepted.length)
  let st3 :=
    match outcome.2 with
    | Except.error _ => rollbackTx outcome.1
    | Except.ok _ => commitTx outcome.1
  let st4 := commitTx st3
  ({ st4 with sync := origSync, tempStore := origTemp, cacheSize := origCache },
    outcome.2)

/-- SQLite `TRIM` with the default character set: strip leading and
trailing space characters. -/
def sqlTrim (s : String) : String :=
  ⟨((s.data.dropWhile (· == ' ')).reverse.dropWhile (· == ' ')).reverse⟩

/-- The name-validity filter used by every listing/counting query
(`regionName IS NOT NULL AND TRIM(regionName) <> '' AND
LOWER(regionName) <> 'no name'`). -/
def validName : Option String → Bool
  | none => false
  | some s => !(sqlTrim s == "") && !(lowerStr s == "no name")

/-- Byte-wise (code-point) lexicographic `≤` on character lists, the
BINARY string comparison SQLite applies to text. -/
def charListLe : List Char → List Char → Bool
  | [], _ => true
  | _ :: _, [] => false
  | a :: as, b :: bs => if a < b then true else if b < a then false else charListLe as bs

/-- `ORDER BY name COLLATE NOCASE`: compare names lower-cased. -/
def nameLe (a b : Int × Option String) : Prop :=
  charListLe (lowerStr (a.2.getD "")).data (lowerStr (b.2.getD "")).data = true

instance : DecidableRel nameLe := fun a b => by
  unfold nameLe; infer_instance

/-- `list_regions` (lines 338–348): regions passing the name filter,
ordered by name case-insensitively (the sort determinizes SQLite's
ordering of ties). -/
def list_regions (regions : List (Int × Option String)) : List (Int × Option String) :=
  List.insertionSort nameLe (regions.filter (fun r => validName r.2))

/-- `total_regions` (lines 439–448): count of regions passing the name
filter. -/
def total_regions (regions : List (Int × Option String)) : Nat :=
  (regions.filter (fun r => validName r.2)).length

/-- `count_planets_region` (lines 391–394): raw count of fact rows with
the given `regionID`, no name filtering (a SQL `regionID = ?` comparison
never matches a NULL `regionID`). -/
def count_planets_region (planets : List PlanetRow) (rid : Int) : Nat :=
  (planets.filter (fun p => p.regionID == some rid)).length

/-- `total_planets` (lines 472–482): `COUNT(*)` over the join of
`planets` with `mapRegions` on `regionID`, keeping only join partners
passing the name filter; each fact row contributes one joined row per
matching valid region. -/
def total_planets (planets : List PlanetRow)
    (regions : List (Int × Option String)) : Nat :=
  (planets.map (fun p =>
    (regions.filter (fun rg => p.regionID == some rg.1 && validName rg.2)).length)).sum

/-- The scoped category multiset for `counts_by_category_region`:
categories of the fact rows with the given `regionID`. -/
def categoriesOfRegion (planets : List PlanetRow) (rid : Int) : List String :=
  (planets.filter (fun p => p.regionID == some rid)).map (fun p => p.category)

/-- BINARY ascending order on group keys. -/
def strLe (a b : String) : Prop := charListLe a.data b.data = true

instance : DecidableRel strLe := fun a b => by
  unfold strLe; infer_instance

/-- The output of `SELECT category, COUNT(1) … GROUP BY category`: one
row per distinct category with its count, enumerated in ascending
category order (SQLite's GROUP BY output order for this unindexed
grouping). -/
def groupsOf (cats : List String) : List (String × Nat) :=
  (List.insertionSort strLe cats.dedup).map (fun c => (c, cats.count c))

/-- Read a counter from the Python `counts` dict (0 when absent). -/
def dictGet : List (String × Nat) → String → Nat
  | [], _ => 0
  | kv :: rest, k => if kv.1 == k then kv.2 else dictGet rest k

/-- `counts[cat] = c`: overwrite an existing key's value. -/
def dictSet : List (String × Nat) → String → Nat → List (String × Nat)
  | [], _, _ => []
  | kv :: rest, k, v => (if kv.1 == k then (kv.1, v) else kv) :: dictSet rest k v

/-- `counts["Barren"] += c`: add to an existing key's value. -/
def dictAdd : List (String × Nat) → String → Nat → List (String × Nat)
  | [], _, _ => []
  | kv :: rest, k, c => (if kv.1 == k then (kv.1, kv.2 + c) else kv) :: dictAdd rest k c

/-- The `{k: 0 for k in PLANET_TYPES}` initial dict. -/
def initCounts : List (String × Nat) :=
  PLANET_TYPES.map (fun k => (k, 0))

/-- The per-group fold of `counts_by_category_region` (lines 416–420):
a known category's counter is assigned its group count; an unknown
category's group count is added to the `"Barren"` counter. -/
def foldGroups (d : List (String × Nat)) (gs : List (String × Nat)) : List (String × Nat) :=
  gs.foldl (fun acc g =>
    if PLANET_TYPES.contains g.1 then dictSet acc g.1 g.2
    else dictAdd acc "Barren" g.2) d

/-- `counts_by_category_region` (lines 412–421) as the final association
list over the ten fixed keys. -/
def counts_by_category_region (planets : List PlanetRow) (rid : Int) : List (String × Nat) :=
  foldGroups initCounts (groupsOf (categoriesOfRegion planets rid))

/-- Sum of the returned per-category counters. -/
def sumCounts (d : List (String × Nat)) : Nat :=
  (d.map (fun kv => kv.2)).sum

/-- `ORDER BY orbitalID` ascending under SQLite semantics: NULL sorts
before every value. -/
def orbLe (a b : Option Int) : Bool :=
  match a, b with
  | none, _ => true
  | some _, none => false
  | some i, some j => i ≤ j

/-- Row ordering used by `planets_in_system`. -/
def rowOrbLe (a b : PlanetRow) : Prop := orbLe a.orbitalID b.orbitalID = true

instance : DecidableRel rowOrbLe := fun a b => by
  unfold rowOrbLe; infer_instance

instance : IsTotal PlanetRow rowOrbLe :=
  ⟨fun a b => by
    unfold rowOrbLe
    cases a.orbitalID <;> cases b.orbitalID <;> simp [orbLe] <;> omega⟩

instance : IsTrans PlanetRow rowOrbLe :=
  ⟨fun a b c h1 h2 => by
    unfold rowOrbLe orbLe at *
    cases ha : a.orbitalID <;> cases hb : b.orbitalID <;> cases hc : c.orbitalID <;>
      simp_all <;> omega⟩

/-- The fact rows of a system in the order `planets_in_system` emits them
(`WHERE solarSystemID = ? ORDER BY orbitalID`, lines 434–437). -/
def planets_in_system_rows (planets : List PlanetRow) (sid : Int) : List PlanetRow :=
  List.insertionSort rowOrbLe (planets.filter (fun p => p.solarSystemID == sid))

/-- The projection `SELECT itemID, itemName, radius_km, typeName,
category` of a fact row. -/
def projPlanet (p : PlanetRow) : Int × Option String × Option ℚ × Option String × String :=
  (p.itemID, p.itemName, p.radius_km, p.typeName, p.category)

/-- `planets_in_system` (lines 434–437): the ordered display tuples. -/
def planets_in_system (planets : List PlanetRow) (sid : Int) :
    List (Int × Option String × Option ℚ × Option String × String) :=
  (planets_in_system_rows planets sid).map projPlanet

/-- Python's `a or b` on optional strings: `a` unless it is falsy
(`None` or the empty string), else `b`. -/
def pyOr (a b : Option String) : Option String :=
  match a with
  | some s => if s == "" then b else some s
  | none => b

/-- A `mapRegions.csv` source row after parsing: `regionID` via
`try_int`, plus the `regionName` and fallback `name` columns. -/
structure RegionSrcRow where
  regionID : Option Int
  regionName : Option String
  name : Option String
deriving DecidableEq

/-- Row acceptance of `import_csv_mapRegions` (lines 204–209): skip when
`regionID` is missing or the derived name (`regionName or name`) is
falsy; otherwise keep `(regionID, name)`. -/
def parseRegionRow (r : RegionSrcRow) : Option (Int × String) :=
  match r.regionID, pyOr r.regionName r.name with
  | some k, some nm => if nm == "" then none else some (k, nm)
  | some _, none => none
  | none, _ => none

/-- `INSERT OR REPLACE INTO mapRegions` keyed on `regionID`. -/
def upsertRegion (tbl : List (Int × Option String)) (k : Int) (nm : String) :
    List (Int × Option String) :=
  if tbl.any (fun r => r.1 == k) then
    tbl.map (fun r => if r.1 == k then (k, some nm) else r)
  else tbl ++ [(k, some nm)]

/-- `import_csv_mapRegions` (lines 200–220): accepted rows are upserted
in stream order (batch flushes preserve that order, so batching is
semantically transparent). -/
def import_csv_mapRegions (tbl : List (Int × Option String))
    (src : List RegionSrcRow) : List (Int × Option String) :=
  (src.filterMap parseRegionRow).foldl (fun t kv => upsertRegion t kv.1 kv.2) tbl

/-- A `mapConstellations.csv` source row after parsing. -/
structure ConstSrcRow where
  constellationID : Option Int
  regionID : Option Int
  constellationName : Option String
  name : Option String
deriving DecidableEq

/-- Row acceptance of `import_csv_mapConstellations` (lines 226–232):
skip only when `constellationID` or `regionID` is missing; the (possibly
missing) name is stored as-is. -/
def parseConstRow (r : ConstSrcRow) : Option (Int × Int × Option String) :=
  match r.constellationID, r.regionID with
  | some c, some rg => some (c, rg, pyOr r.constellationName r.name)
  | _, _ => none

/-- `INSERT OR REPLACE INTO mapConstellations` keyed on
`constellationID`. -/
def upsertConst (tbl : List (Int × Int × Option String)) (row : Int × Int × Option String) :
    List (Int × Int × Option String) :=
  if tbl.any (fun r => r.1 == row.1) then
    tbl.map (fun r => if r.1 == row.1 then row else r)
  else tbl ++ [row]

/-- `import_csv_mapConstellations` (lines 222–243). -/
def import_csv_mapConstellations (tbl : List (Int × Int × Option String))
    (src : List ConstSrcRow) : List (Int × Int × Option String) :=
  (src.filterMap parseConstRow).foldl upsertConst tbl

/-- A `mapSolarSystems.csv` source row after parsing. -/
structure SystemSrcRow where
  solarSystemID : Option Int
  constellationID : Option Int
  solarSystemName : Option String
  name : Option String
deriving DecidableEq

/-- Row acceptance of `import_csv_mapSolarSystems` (lines 249–255): skip
only when `solarSystemID` or `constellationID` is missing; the (possibly
missing) name is stored as-is. -/
def parseSystemRow (r : SystemSrcRow) : Option (Int × Int × Option String) :=
  match r.solarSystemID, r.constellationID with
  | some s, some c => some (s, c, pyOr r.solarSystemName r.name)
  | _, _ => none

/-- `import_csv_mapSolarSystems` (lines 245–266). -/
def import_csv_mapSolarSystems (tbl : List (Int × Int × Option String))
    (src : List SystemSrcRow) : List (Int × Int × Option String) :=
  (src.filterMap parseSystemRow).foldl upsertConst tbl

/-- Name ordering for the constellation listing. -/
def constNameLe (a b : Int × Int × Option String) : Prop :=
  charListLe (lowerStr (a.2.2.getD "")).data (lowerStr (b.2.2.getD "")).data = true

instance : DecidableRel constNameLe := fun a b => by
  unfold constNameLe; infer_instance

/-- `constellations_in_region` (lines 350–361): constellations of the
region passing the name filter, ordered by name case-insensitively,
projected to `(constellationID, constellationName)`. -/
def constellations_in_region (tbl : List (Int × Int × Option String))
    (rid : Int) : List (Int × Option String) :=
  (List.insertionSort constNameLe
    (tbl.filter (fun c => c.2.1 == rid && validName c.2.2))).map
      (fun c => (c.1, c.2.2))

/-!
Concrete fixtures used by witnesses and counterexamples.
-/

def st0 : RebuildState :=
  { planets := [], pending := none, sync := 2, tempStore := 0, cacheSize := -2000 }

def inv0 : List InvType :=
  [{ typeID := 2016, groupID := some 7, typeName := some "Planet (Lava)" }]

def srcLava : SrcRow :=
  { groupID := some 7, itemID := some 40000001, typeID := some 2016,
    solarSystemID := some 30000001, constellationID := some 20000001,
    regionID := some 10000001, orbitalID := some 1, radius := some 6000000,
    itemName := some "Test I" }

def zeroIdRow : SrcRow :=
  { groupID := some 7, itemID := some 0, typeID := some 2016,
    solarSystemID := some 30000001, constellationID := none, regionID := none,
    orbitalID := none, radius := none, itemName := none }

def pLava : PlanetRow :=
  { itemID := 40000001, typeID := 2016, groupID := 7, category := "Lava",
    typeName := some "Planet (Lava)", itemName := some "Test I",
    solarSystemID := 30000001, constellationID := some 20000001,
    regionID := some 10000001, orbitalID := some 1,
    radius_km := some ((6000000 : ℚ) / 1000) }

def pAlien1 : PlanetRow :=
  { itemID := 1, typeID := 1, groupID := 7, category := "Alien", typeName := none,
    itemName := none, solarSystemID := 1, constellationID := none, regionID := some 1,
    orbitalID := none, radius_km := none }

def pAlien2 : PlanetRow := { pAlien1 with itemID := 2 }

def pBarren1 : PlanetRow := { pAlien1 with itemID := 3, category := "Barren" }

def qLava5 : PlanetRow :=
  { itemID := 10, typeID := 2016, groupID := 7, category := "Lava",
    typeName := some "Planet (Lava)", itemName := some "X I",
    solarSystemID := 1, constellationID := none, regionID := some 1,
    orbitalID := some 5, radius_km := none }

def qGasNull : PlanetRow :=
  { qLava5 with
      itemID := 11
      category := "Gas"
      typeName := some "Planet (Gas)"
      itemName := some "X II"
      orbitalID := none }

def regs5 : List (Int × Option String) := [(5, some "No Name"), (6, some "Derelik")]

def pInNoName : PlanetRow := { qLava5 with itemID := 21, regionID := some 5 }

def pInDerelik : PlanetRow := { qLava5 with itemID := 22, regionID := some 6 }

def metSrc : List RegionSrcRow :=
  [{ regionID := some 10000002, regionName := some "Metropolis", name := none },
   { regionID := some 10000002, regionName := some "Metropolis Prime", name := none }]

def noNameRegionRow : RegionSrcRow :=
  { regionID := some 10000099, regionName := some "", name := none }

def noNameConstRow : ConstSrcRow :=
  { constellationID := some 20000099, regionID := some 10000099,
    constellationName := none, name := none }

def someSystemRow : SystemSrcRow :=
  { solarSystemID := some 30000099, constellationID := some 20000099,
    solarSystemName := none, name := none }

theorem rebuild_success_shape (st : RebuildState) (inv : List InvType) (src : List SrcRow) :
    (rebuildFactTable st inv src none).1.planets =
      (src.filterMap (processRow (planetTypeMap inv))).foldl upsertPlanet st.planets ∧
    (rebuildFactTable st inv src none).2 =
      Except.ok (src.filterMap (processRow (planetTypeMap inv))).length := by
  simp [rebuildFactTable, beginTx, commitTx, rollbackTx]

theorem rebuild_error_shape (st : RebuildState) (inv : List InvType) (src : List SrcRow)
    (n : Nat) (hn : n < 3 + (src.filterMap (processRow (planetTypeMap inv))).length + 3) :
    (rebuildFactTable st inv src (some n)).1.planets = st.planets ∧
    (rebuildFactTable st inv src (some n)).1.pending = none ∧
    (rebuildFactTable st inv src (some n)).2 = Except.error () := by
  simp only [rebuildFactTable, beginTx, commitTx, rollbackTx]
  split_ifs <;> simp_all

theorem rebuild_pragmas_restored (st : RebuildState) (inv : List InvType) (src : List SrcRow)
    (failAt : Option Nat) :
    (rebuildFactTable st inv src failAt).1.sync = st.sync ∧
    (rebuildFactTable st inv src failAt).1.tempStore = st.tempStore ∧
    (rebuildFactTable st inv src failAt).1.cacheSize = st.cacheSize := by
  cases failAt <;> simp [rebuildFactTable, beginTx, commitTx, rollbackTx]

-- upsert membership lemma for C3

theorem mem_upsertPlanet {tbl : List PlanetRow} {a p : PlanetRow}
    (h : p ∈ upsertPlanet tbl a) : p ∈ tbl ∨ p = a := by
  unfold upsertPlanet at h
  split at h
  · rcases List.mem_map.1 h with ⟨q, hq, he⟩
    by_cases hc : (q.itemID == a.itemID) = true
    · right; rw [if_pos hc] at he; exact he.symm
    · left; rw [if_neg hc] at he; exact he ▸ hq
  · rcases List.mem_append.1 h with h | h
    · exact Or.inl h
    · simp only [List.mem_singleton] at h; exact Or.inr h

theorem mem_foldl_upsertPlanet {l : List PlanetRow} {init : List PlanetRow} {p : PlanetRow}
    (h : p ∈ l.foldl upsertPlanet init) : p ∈ init ∨ p ∈ l := by
  induction l generalizing init with
  | nil => exact Or.inl h
  | cons a l ih =>
    rcases ih h with h2 | h2
    · rcases mem_upsertPlanet h2 with h3 | h3
      · exact Or.inl h3
      · exact Or.inr (h3 ▸ List.mem_cons_self a l)
    · exact Or.inr (List.mem_cons_of_mem a h2)

/-- C8: every source row accepted by the rebuild stores `radius_km` equal
to the source radius in meters divided by 1000 (exact rational model of
the REAL column), and a row whose source radius is absent or unparseable
stores an absent `radius_km`. -/
theorem radius_km_conversion (tm : Int → Option String) (r : SrcRow) (p : PlanetRow) (m : ℚ)
    (hp : processRow tm r = some p) :
    (r.radius = some m → p.radius_km = some (m / 1000)) ∧
    (r.radius = none → p.radius_km = none) := by
  unfold processRow at hp
  split at hp
  · cases hp
    constructor <;> intro h <;> simp [h]
  · cases hp

/-- C9: a source row whose `groupID` is 7 and whose `itemID`, `typeID`
and `solarSystemID` fields are all present is nevertheless rejected
whenever any of them parses to the integer 0 — Python truthiness treats a
zero identifier like a missing one — and such a row is neither stored nor
counted in the returned insert count. -/
theorem zero_identifier_rejected (st : RebuildState) (inv : List InvType) (r : SrcRow)
    (hg : r.groupID = some 7)
    (hi : r.itemID ≠ none) (ht : r.typeID ≠ none) (hs : r.solarSystemID ≠ none)
    (hz : r.itemID = some 0 ∨ r.typeID = some 0 ∨ r.solarSystemID = some 0) :
    processRow (planetTypeMap inv) r = none ∧
    (rebuildFactTable st inv [r] none).1.planets = st.planets ∧
    (rebuildFactTable st inv [r] none).2 = Except.ok 0 := by
  have hnone : processRow (planetTypeMap inv) r = none := by
    rcases hz with h | h | h <;> simp [processRow, h, truthyI]
  have hfm : ([r].filterMap (processRow (planetTypeMap inv))) = [] := by
    simp [List.filterMap_cons, hnone]
  refine ⟨hnone, ?_, ?_⟩
  · rw [(rebuild_success_shape st inv [r]).1, hfm]; rfl
  · rw [(rebuild_success_shape st inv [r]).2, hfm]; rfl

/-- C3 (amended): a source row is rejected if and only if its `groupID`
does not parse to 7 or one of `itemID`, `typeID`, `solarSystemID` is
Python-falsy — missing, unparseable, or zero; the rebuild's returned
insert count is exactly the number of accepted rows; and every row of the
rebuilt fact table is either a pre-existing row or the processed image of
some source row (so rejected rows are never stored). -/
theorem rejection_criterion (st : RebuildState) (inv : List InvType)
    (src : List SrcRow) (tm : Int → Option String) (r : SrcRow) :
    (processRow tm r = none ↔
      ¬(r.groupID = some 7 ∧ truthyI r.itemID = true ∧ truthyI r.typeID = true ∧
        truthyI r.solarSystemID = true)) ∧
    (rebuildFactTable st inv src none).2 =
      Except.ok ((src.filterMap (processRow (planetTypeMap inv))).length) ∧
    (∀ p ∈ (rebuildFactTable st inv src none).1.planets,
      p ∈ st.planets ∨ ∃ r2 ∈ src, processRow (planetTypeMap inv) r2 = some p) := by
  refine ⟨?_, (rebuild_success_shape st inv src).2, ?_⟩
  · unfold processRow
    split <;> rename_i hcond
    · simp only [reduceCtorEq, false_iff, not_not]
      simp only [Bool.and_eq_true, beq_iff_eq] at hcond
      exact ⟨hcond.1.1.1, hcond.1.1.2, hcond.1.2, hcond.2⟩
    · simp only [true_iff]
      intro hc
      apply hcond
      simp [hc.1, hc.2.1, hc.2.2.1, hc.2.2.2]
  · intro p hp
    rw [(rebuild_success_shape st inv src).1] at hp
    rcases mem_foldl_upsertPlanet hp with h | h
    · exact Or.inl h
    · rcases List.mem_filterMap.1 h with ⟨r2, hr2, hpr⟩
      exact Or.inr ⟨r2, hr2, hpr⟩

/-- C1: `build_planets_from_mapDenormalize` is atomic.  An exception
injected at any step inside the transaction (the index drops, any row
upsert, the index recreation) leaves the committed fact table exactly as
it was before the rebuild started, closes the transaction, and re-raises
the error to the caller; and the saved PRAGMA settings (`synchronous`,
`temp_store`, `cache_size`) are restored on every exit path, failing or
successful. -/
theorem rebuild_atomic (st : RebuildState) (inv : List InvType) (src : List SrcRow)
    (n : Nat) (failAt : Option Nat)
    (hn : n < 3 + (src.filterMap (processRow (planetTypeMap inv))).length + 3) :
    (rebuildFactTable st inv src (some n)).1.planets = st.planets ∧
    (rebuildFactTable st inv src (some n)).1.pending = none ∧
    (rebuildFactTable st inv src (some n)).2 = Except.error () ∧
    (rebuildFactTable st inv src failAt).1.sync = st.sync ∧
    (rebuildFactTable st inv src failAt).1.tempStore = st.tempStore ∧
    (rebuildFactTable st inv src failAt).1.cacheSize = st.cacheSize := by
  obtain ⟨a, b, c⟩ := rebuild_error_shape st inv src n hn
  obtain ⟨d, e, f⟩ := rebuild_pragmas_restored st inv src failAt
  exact ⟨a, b, c, d, e, f⟩

/-- Witness for C1: a one-row rebuild failing at the first upsert leaves
the empty fact table empty, raises, and restores `synchronous`. -/
theorem rebuild_atomic_witness :
    (rebuildFactTable st0 inv0 [srcLava] (some 3)).1.planets = [] ∧
    (rebuildFactTable st0 inv0 [srcLava] (some 3)).2 = Except.error () ∧
    (rebuildFactTable st0 inv0 [srcLava] none).1.sync = 2 := by
  have h := rebuild_atomic st0 inv0 [srcLava] 3 none (by decide)
  exact ⟨h.1, h.2.2.1, h.2.2.2.1⟩

/-- Witness for C9 at a concrete zero-`itemID` row. -/
theorem zero_identifier_rejected_witness :
    processRow (planetTypeMap inv0) zeroIdRow = none ∧
    (rebuildFactTable st0 inv0 [zeroIdRow] none).2 = Except.ok 0 := by
  have h := zero_identifier_rejected st0 inv0 zeroIdRow (by decide) (by decide)
    (by decide) (by decide) (Or.inl (by decide))
  exact ⟨h.1, h.2.2⟩

/-- C3 counterexample: a row with `groupID` 7 whose three identifier
fields are all present (its `itemID` parses to 0) is rejected, refuting
the claim that rows are rejected only when the group mismatches or a
field is missing. -/
theorem rejection_missing_only_fails :
    zeroIdRow.groupID = some 7 ∧ zeroIdRow.itemID ≠ none ∧ zeroIdRow.typeID ≠ none ∧
    zeroIdRow.solarSystemID ≠ none ∧ processRow (planetTypeMap inv0) zeroIdRow = none := by
  decide

/-- Witness for C8: a 6 000 000 m radius is stored as 6 000 km. -/
theorem radius_km_conversion_witness :
    processRow (planetTypeMap inv0) srcLava = some pLava ∧
    pLava.radius_km = some 6000 := by
  have h := (radius_km_conversion (planetTypeMap inv0) srcLava pLava 6000000 rfl).1 rfl
  exact ⟨rfl, h.trans (congrArg some (by norm_num))⟩

/-- Witness for C3: the zero-`itemID` row is rejected and a one-row
rebuild of an accepted row returns insert count 1. -/
theorem rejection_criterion_witness :
    processRow (planetTypeMap inv0) zeroIdRow = none ∧
    (rebuildFactTable st0 inv0 [srcLava] none).2 = Except.ok 1 := by
  refine ⟨(rejection_criterion st0 inv0 [srcLava] (planetTypeMap inv0) zeroIdRow).1.mpr
    (by decide), ?_⟩
  have h := (rejection_criterion st0 inv0 [srcLava] (planetTypeMap inv0) zeroIdRow).2.1
  have hl : (List.filterMap (processRow (planetTypeMap inv0)) [srcLava]).length = 1 := rfl
  rw [hl] at h
  exact h

/-- C2 (amended): `categorize_type` lower-cases its input and applies the
substring rules in the source's priority order.  A label matching none of
the nine specific substrings yields `"Barren"`, and a label containing
`"scorched"` but none of the eight higher-priority substrings yields
`"Scorched Barren"` (whether or not it also contains `"barren"`).  The
original claim's stronger form — every label containing both `"scorched"`
and `"barren"` yields `"Scorched Barren"` — is refuted by
`classify_scorched_barren_fails`. -/
theorem classify_priority_order (t : Option String)
    (h1 : strContains (lowerStr (t.getD "")) "temperate" = false)
    (h2 : strContains (lowerStr (t.getD "")) "ice" = false)
    (h3 : strContains (lowerStr (t.getD "")) "gas" = false)
    (h4 : strContains (lowerStr (t.getD "")) "oceanic" = false)
    (h5 : strContains (lowerStr (t.getD "")) "lava" = false)
    (h6 : strContains (lowerStr (t.getD "")) "plasma" = false)
    (h7 : strContains (lowerStr (t.getD "")) "storm" = false)
    (h8 : strContains (lowerStr (t.getD "")) "shattered" = false) :
    (strContains (lowerStr (t.getD "")) "scorched" = false →
      categorize_type t = "Barren") ∧
    (strContains (lowerStr (t.getD "")) "scorched" = true →
      categorize_type t = "Scorched Barren") := by
  constructor <;> intro h9 <;>
    simp only [categorize_type, h1, h2, h3, h4, h5, h6, h7, h8, h9,
      Bool.false_eq_true, if_false, if_true] <;> split <;> rfl

/-- C2 counterexample: `"ice scorched barren"` contains both `"scorched"`
and `"barren"` yet classifies as `"Ice"`, because the `"ice"` rule fires
first; so the claim's universal scorched-and-barren property fails. -/
theorem classify_scorched_barren_fails :
    strContains (lowerStr "ice scorched barren") "scorched" = true ∧
    strContains (lowerStr "ice scorched barren") "barren" = true ∧
    categorize_type (some "ice scorched barren") = "Ice" ∧
    categorize_type (some "ice scorched barren") ≠ "Scorched Barren" := by
  decide

/-- Witness for C2 at the concrete labels `"Rocky World"` and
`"Scorched Barren IX"`. -/
theorem classify_priority_order_witness :
    categorize_type (some "Rocky World") = "Barren" ∧
    categorize_type (some "Scorched Barren IX") = "Scorched Barren" := by
  refine ⟨(classify_priority_order (some "Rocky World") (by decide) (by decide)
    (by decide) (by decide) (by decide) (by decide) (by decide) (by decide)).1
    (by decide), ?_⟩
  exact (classify_priority_order (some "Scorched Barren IX") (by decide) (by decide)
    (by decide) (by decide) (by decide) (by decide) (by decide) (by decide)).2
    (by decide)

theorem keys_dictSet (d : List (String × Nat)) (k : String) (v : Nat) :
    (dictSet d k v).map Prod.fst = d.map Prod.fst := by
  induction d with
  | nil => rfl
  | cons a l ih =>
    by_cases h : (a.1 == k) = true <;> simp [dictSet, h, ih]

theorem keys_dictAdd (d : List (String × Nat)) (k : String) (c : Nat) :
    (dictAdd d k c).map Prod.fst = d.map Prod.fst := by
  induction d with
  | nil => rfl
  | cons a l ih =>
    by_cases h : (a.1 == k) = true <;> simp [dictAdd, h, ih]

theorem keys_foldGroups (gs : List (String × Nat)) (d : List (String × Nat)) :
    (foldGroups d gs).map Prod.fst = d.map Prod.fst := by
  induction gs generalizing d with
  | nil => rfl
  | cons g rest ih =>
    unfold foldGroups
    simp only [List.foldl_cons]
    by_cases h : PLANET_TYPES.contains g.1
    · rw [if_pos h]
      rw [show (List.foldl _ (dictSet d g.1 g.2) rest) = foldGroups (dictSet d g.1 g.2) rest from rfl]
      rw [ih, keys_dictSet]
    · rw [if_neg h]
      rw [show (List.foldl _ (dictAdd d "Barren" g.2) rest) = foldGroups (dictAdd d "Barren" g.2) rest from rfl]
      rw [ih, keys_dictAdd]

theorem dictGet_dictSet_ne (d : List (String × Nat)) {k k' : String} (v : Nat)
    (h : k' ≠ k) : dictGet (dictSet d k v) k' = dictGet d k' := by
  induction d with
  | nil => rfl
  | cons a l ih =>
    by_cases hak : (a.1 == k) = true
    · have : (a.1 == k') = false := by
        simp only [beq_iff_eq] at hak
        subst hak
        simp only [beq_eq_false_iff_ne, ne_eq]
        exact fun hc => h hc.symm
      simp [dictSet, dictGet, hak, this, ih]
    · by_cases hak' : (a.1 == k') = true <;> simp [dictSet, dictGet, hak, hak', ih]

theorem dictGet_dictAdd_ne (d : List (String × Nat)) {k k' : String} (c : Nat)
    (h : k' ≠ k) : dictGet (dictAdd d k c) k' = dictGet d k' := by
  induction d with
  | nil => rfl
  | cons a l ih =>
    by_cases hak : (a.1 == k) = true
    · have : (a.1 == k') = false := by
        simp only [beq_iff_eq] at hak
        subst hak
        simp only [beq_eq_false_iff_ne, ne_eq]
        exact fun hc => h hc.symm
      simp [dictAdd, dictGet, hak, this, ih]
    · by_cases hak' : (a.1 == k') = true <;> simp [dictAdd, dictGet, hak, hak', ih]

theorem dictAdd_of_not_mem (d : List (String × Nat)) {k : String} (c : Nat)
    (h : ∀ kv ∈ d, kv.1 ≠ k) : dictAdd d k c = d := by
  induction d with
  | nil => rfl
  | cons a l ih =>
    have ha : (a.1 == k) = false := by
      simp only [beq_eq_false_iff_ne, ne_eq]
      exact h a (List.mem_cons_self a l)
    simp [dictAdd, ha, ih (fun kv hkv => h kv (List.mem_cons_of_mem a hkv))]

theorem dictSet_of_not_mem (d : List (String × Nat)) {k : String} (v : Nat)
    (h : ∀ kv ∈ d, kv.1 ≠ k) : dictSet d k v = d := by
  induction d with
  | nil => rfl
  | cons a l ih =>
    have ha : (a.1 == k) = false := by
      simp only [beq_eq_false_iff_ne, ne_eq]
      exact h a (List.mem_cons_self a l)
    simp [dictSet, ha, ih (fun kv hkv => h kv (List.mem_cons_of_mem a hkv))]

theorem count_zero_keys {d : List (String × Nat)} {k : String}
    (h : (d.map Prod.fst).count k = 0) : ∀ kv ∈ d, kv.1 ≠ k := by
  intro kv hkv hc
  have : k ∈ d.map Prod.fst := List.mem_map.2 ⟨kv, hkv, hc⟩
  exact absurd (List.count_pos_iff.2 this) (by omega)

theorem sumCounts_dictAdd (d : List (String × Nat)) {k : String} (c : Nat)
    (hk : (d.map Prod.fst).count k = 1) :
    sumCounts (dictAdd d k c) = sumCounts d + c := by
  induction d with
  | nil => simp at hk
  | cons a l ih =>
    by_cases hak : (a.1 == k) = true
    · have heq : a.1 = k := by simpa using hak
      have hl : (l.map Prod.fst).count k = 0 := by
        simp [List.count_cons, heq] at hk
        omega
      simp [dictAdd, hak, sumCounts, dictAdd_of_not_mem l c (count_zero_keys hl)]
      omega
    · have heq : a.1 ≠ k := by simpa using hak
      have hl : (l.map Prod.fst).count k = 1 := by
        simpa [List.count_cons, heq] using hk
      simp [dictAdd, hak, sumCounts] at *
      omega

theorem sumCounts_dictSet (d : List (String × Nat)) {k : String} (v : Nat)
    (hk : (d.map Prod.fst).count k = 1) (h0 : dictGet d k = 0) :
    sumCounts (dictSet d k v) = sumCounts d + v := by
  induction d with
  | nil => simp at hk
  | cons a l ih =>
    by_cases hak : (a.1 == k) = true
    · have heq : a.1 = k := by simpa using hak
      have hl : (l.map Prod.fst).count k = 0 := by
        simp [List.count_cons, heq] at hk
        omega
      have ha2 : a.2 = 0 := by simpa [dictGet, hak] using h0
      simp [dictSet, hak, sumCounts, dictSet_of_not_mem l v (count_zero_keys hl), ha2]
      omega
    · have heq : a.1 ≠ k := by simpa using hak
      have hl : (l.map Prod.fst).count k = 1 := by
        simpa [List.count_cons, heq] using hk
      have h0l : dictGet l k = 0 := by simpa [dictGet, hak] using h0
      simp [dictSet, hak, sumCounts] at *
      omega

theorem PLANET_TYPES_nodup : PLANET_TYPES.Nodup := by decide

theorem foldGroups_cons (d : List (String × Nat)) (g : String × Nat)
    (rest : List (String × Nat)) :
    foldGroups d (g :: rest) =
      foldGroups (if PLANET_TYPES.contains g.1 then dictSet d g.1 g.2
        else dictAdd d "Barren" g.2) rest := by
  unfold foldGroups
  simp only [List.foldl_cons]

theorem foldGroups_sum_known (gs : List (String × Nat)) (d : List (String × Nat))
    (hkeys : d.map Prod.fst = PLANET_TYPES)
    (hnd : (gs.map Prod.fst).Nodup)
    (hall : ∀ g ∈ gs, g.1 ∈ PLANET_TYPES)
    (hzero : ∀ g ∈ gs, dictGet d g.1 = 0) :
    sumCounts (foldGroups d gs) = sumCounts d + (gs.map Prod.snd).sum := by
  induction gs generalizing d with
  | nil => simp [foldGroups]
  | cons g rest ih =>
    have hg : g.1 ∈ PLANET_TYPES := hall g (List.mem_cons_self g rest)
    have hcont : PLANET_TYPES.contains g.1 = true := List.elem_eq_true_of_mem hg
    rw [foldGroups_cons, if_pos hcont]
    have hcount : (d.map Prod.fst).count g.1 = 1 := by
      rw [hkeys]
      exact List.count_eq_one_of_mem PLANET_TYPES_nodup hg
    rw [List.map_cons] at hnd
    have hnd2 := List.nodup_cons.1 hnd
    have hfresh : ∀ h ∈ rest, h.1 ≠ g.1 := by
      intro x hx hc
      exact hnd2.1 (hc ▸ List.mem_map.2 ⟨x, hx, rfl⟩)
    rw [ih (dictSet d g.1 g.2)
      (by rw [keys_dictSet, hkeys])
      hnd2.2
      (fun x hx => hall x (List.mem_cons_of_mem g hx))
      (fun x hx => by
        rw [dictGet_dictSet_ne d g.2 (hfresh x hx)]
        exact hzero x (List.mem_cons_of_mem g hx))]
    rw [sumCounts_dictSet d g.2 hcount (hzero g (List.mem_cons_self g rest))]
    simp only [List.map_cons, List.sum_cons]
    omega

theorem foldGroups_sum_nobarren (gs : List (String × Nat)) (d : List (String × Nat))
    (hkeys : d.map Prod.fst = PLANET_TYPES)
    (hnd : (gs.map Prod.fst).Nodup)
    (hnb : ∀ g ∈ gs, g.1 ≠ "Barren")
    (hzero : ∀ g ∈ gs, g.1 ∈ PLANET_TYPES → dictGet d g.1 = 0) :
    sumCounts (foldGroups d gs) = sumCounts d + (gs.map Prod.snd).sum := by
  induction gs generalizing d with
  | nil => simp [foldGroups]
  | cons g rest ih =>
    rw [List.map_cons] at hnd
    have hnd2 := List.nodup_cons.1 hnd
    have hfresh : ∀ h ∈ rest, h.1 ≠ g.1 := by
      intro x hx hc
      exact hnd2.1 (hc ▸ List.mem_map.2 ⟨x, hx, rfl⟩)
    by_cases hcont : PLANET_TYPES.contains g.1 = true
    · have hg : g.1 ∈ PLANET_TYPES := List.mem_of_elem_eq_true hcont
      have hcount : (d.map Prod.fst).count g.1 = 1 := by
        rw [hkeys]
        exact List.count_eq_one_of_mem PLANET_TYPES_nodup hg
      rw [foldGroups_cons, if_pos hcont]
      rw [ih (dictSet d g.1 g.2)
        (by rw [keys_dictSet, hkeys])
        hnd2.2
        (fun x hx => hnb x (List.mem_cons_of_mem g hx))
        (fun x hx hxp => by
          rw [dictGet_dictSet_ne d g.2 (hfresh x hx)]
          exact hzero x (List.mem_cons_of_mem g hx) hxp)]
      rw [sumCounts_dictSet d g.2 hcount (hzero g (List.mem_cons_self g rest) hg)]
      simp only [List.map_cons, List.sum_cons]
      omega
    · have hcount : (d.map Prod.fst).count "Barren" = 1 := by
        rw [hkeys]
        exact List.count_eq_one_of_mem PLANET_TYPES_nodup (by decide)
      rw [foldGroups_cons, if_neg hcont]
      rw [ih (dictAdd d "Barren" g.2)
        (by rw [keys_dictAdd, hkeys])
        hnd2.2
        (fun x hx => hnb x (List.mem_cons_of_mem g hx))
        (fun x hx hxp => by
          rw [dictGet_dictAdd_ne d g.2 (hnb x (List.mem_cons_of_mem g hx))]
          exact hzero x (List.mem_cons_of_mem g hx) hxp)]
      rw [sumCounts_dictAdd d g.2 hcount]
      simp only [List.map_cons, List.sum_cons]
      omega

theorem dictGet_zeros (l : List String) (k : String) :
    dictGet (l.map (fun s => (s, 0))) k = 0 := by
  induction l with
  | nil => rfl
  | cons a t ih => by_cases h : (a == k) = true <;> simp [dictGet, h, ih]

theorem groupsOf_keys (cats : List String) :
    (groupsOf cats).map Prod.fst = List.insertionSort strLe cats.dedup := by
  simp [groupsOf, List.map_map, Function.comp_def]

theorem groupsOf_key_mem {cats : List String} {g : String × Nat}
    (h : g ∈ groupsOf cats) : g.1 ∈ cats := by
  rcases List.mem_map.1 h with ⟨c, hc, he⟩
  have : c ∈ cats.dedup := (List.perm_insertionSort strLe cats.dedup).mem_iff.1 hc
  rw [← he]
  exact List.mem_dedup.1 this

theorem groupsOf_nodup (cats : List String) : ((groupsOf cats).map Prod.fst).Nodup := by
  rw [groupsOf_keys]
  exact (List.perm_insertionSort strLe cats.dedup).nodup_iff.2 (List.nodup_dedup cats)

theorem groupsOf_sum (cats : List String) :
    ((groupsOf cats).map Prod.snd).sum = cats.length := by
  have hmm : (groupsOf cats).map Prod.snd =
      (List.insertionSort strLe cats.dedup).map (fun c => cats.count c) := by
    simp [groupsOf, List.map_map]
  rw [hmm]
  have hperm : List.Perm ((List.insertionSort strLe cats.dedup).map (fun c => cats.count c))
      (cats.dedup.map (fun c => cats.count c)) :=
    (List.perm_insertionSort strLe cats.dedup).map _
  rw [hperm.sum_eq]
  exact List.sum_map_count_dedup_eq_length cats

theorem cats_length (planets : List PlanetRow) (rid : Int) :
    (categoriesOfRegion planets rid).length = count_planets_region planets rid := by
  simp [categoriesOfRegion, count_planets_region]

theorem mem_categoriesOfRegion {planets : List PlanetRow} {rid : Int} {c : String}
    (h : c ∈ categoriesOfRegion planets rid) :
    ∃ p ∈ planets, p.regionID = some rid ∧ p.category = c := by
  rcases List.mem_map.1 h with ⟨p, hp, he⟩
  have := List.mem_filter.1 hp
  exact ⟨p, this.1, by simpa using this.2, he⟩

/-- C4 (amended): `counts_by_category_region` always returns all ten
category keys (zero-filled when absent).  Whenever every stored category
at the scope is one of the ten known values — the invariant the rebuild
maintains — and likewise whenever no row at the scope is categorized
exactly `"Barren"`, the returned counts sum to `count_planets_region`.
The claim's unconditional sum invariant and lossless folding are refuted
by `counts_by_category_drops_unknown`. -/
theorem counts_by_category_totals (planets : List PlanetRow) (rid : Int) :
    ((counts_by_category_region planets rid).map Prod.fst = PLANET_TYPES) ∧
    ((∀ p ∈ planets, p.regionID = some rid → p.category ∈ PLANET_TYPES) →
      sumCounts (counts_by_category_region planets rid) =
        count_planets_region planets rid) ∧
    ((∀ p ∈ planets, p.regionID = some rid → p.category ≠ "Barren") →
      sumCounts (counts_by_category_region planets rid) =
        count_planets_region planets rid) := by
  have hkeys0 : initCounts.map Prod.fst = PLANET_TYPES := by
    simp [initCounts, List.map_map, Function.comp_def]
  refine ⟨?_, ?_, ?_⟩
  · rw [counts_by_category_region, keys_foldGroups, hkeys0]
  · intro hknown
    rw [counts_by_category_region,
      foldGroups_sum_known (groupsOf (categoriesOfRegion planets rid)) initCounts hkeys0
        (groupsOf_nodup _)
        (fun g hg => by
          rcases mem_categoriesOfRegion (groupsOf_key_mem hg) with ⟨p, hp, hrid, hcat⟩
          exact hcat ▸ hknown p hp hrid)
        (fun g _ => dictGet_zeros PLANET_TYPES g.1)]
    rw [groupsOf_sum, cats_length, show sumCounts initCounts = 0 from rfl, Nat.zero_add]
  · intro hnb
    rw [counts_by_category_region,
      foldGroups_sum_nobarren (groupsOf (categoriesOfRegion planets rid)) initCounts hkeys0
        (groupsOf_nodup _)
        (fun g hg => by
          rcases mem_categoriesOfRegion (groupsOf_key_mem hg) with ⟨p, hp, hrid, hcat⟩
          exact hcat ▸ hnb p hp hrid)
        (fun g _ _ => dictGet_zeros PLANET_TYPES g.1)]
    rw [groupsOf_sum, cats_length, show sumCounts initCounts = 0 from rfl, Nat.zero_add]

/-- C4 counterexample: two rows of unknown category `"Alien"` plus one
`"Barren"` row in region 1.  The unknown counts are first folded into the
`"Barren"` counter and then overwritten by the `"Barren"` group's own
assignment (`counts[cat] = c`), so the mapping sums to 1 while the raw
region count is 3 — the folded rows are dropped, and the sum invariant
fails for this store state. -/
theorem counts_by_category_drops_unknown :
    sumCounts (counts_by_category_region [pAlien1, pAlien2, pBarren1] 1) = 1 ∧
    count_planets_region [pAlien1, pAlien2, pBarren1] 1 = 3 ∧
    sumCounts (counts_by_category_region [pAlien1, pAlien2, pBarren1] 1) ≠
      count_planets_region [pAlien1, pAlien2, pBarren1] 1 := by
  decide

/-- Witness for C4 on a store whose categories are all known. -/
theorem counts_by_category_totals_witness :
    sumCounts (counts_by_category_region [pBarren1] 1) =
      count_planets_region [pBarren1] 1 := by
  exact (counts_by_category_totals [pBarren1] 1).2.1 (by decide)

/-- C6 (amended): `planets_in_system` returns the fact rows of the system
ordered by `orbitalID` ascending under SQLite comparison semantics, in
which NULL orbital slots sort FIRST, not last as the claim states (see
`bodies_in_system_nulls_first`); the result is a permutation of the
system's rows projected to the display fields. -/
theorem bodies_in_system_order (planets : List PlanetRow) (sid : Int) :
    List.Sorted rowOrbLe (planets_in_system_rows planets sid) ∧
    List.Perm (planets_in_system_rows planets sid)
      (planets.filter (fun p => p.solarSystemID == sid)) ∧
    planets_in_system planets sid = (planets_in_system_rows planets sid).map projPlanet := by
  exact ⟨List.sorted_insertionSort rowOrbLe _, List.perm_insertionSort rowOrbLe _, rfl⟩

/-- C6 counterexample: a system holding a NULL-slot row and a slot-5 row
lists the NULL-slot row first, refuting the claim that null or unknown
slots sort last. -/
theorem bodies_in_system_nulls_first :
    planets_in_system_rows [qLava5, qGasNull] 1 = [qGasNull, qLava5] ∧
    qGasNull.orbitalID = none ∧ qLava5.orbitalID = some 5 ∧
    planets_in_system [qLava5, qGasNull] 1 =
      [projPlanet qGasNull, projPlanet qLava5] := by
  decide

theorem filter_valid_drop_key (regions : List (Int × Option String)) (rid : Int)
    (hval : ∀ nm, (rid, nm) ∈ regions → validName nm = false) :
    regions.filter (fun r => validName r.2) =
      (regions.filter (fun r => !(r.1 == rid))).filter (fun r => validName r.2) := by
  induction regions with
  | nil => rfl
  | cons a l ih =>
    have ihl := ih (fun nm hm => hval nm (List.mem_cons_of_mem a hm))
    by_cases hk : (a.1 == rid) = true
    · have ha : validName a.2 = false := by
        have : a = (rid, a.2) := by
          have : a.1 = rid := by simpa using hk
          exact Prod.ext this rfl
        exact hval a.2 (this ▸ List.mem_cons_self a l)
      simp [List.filter_cons, ha, hk, ihl]
    · simp only [List.filter_cons, hk, Bool.not_false, if_true, if_false]
      by_cases hv : validName a.2 = true <;> simp [hv, ihl]

theorem sum_skip_unmatched (regions : List (Int × Option String)) (rid : Int)
    (planets : List PlanetRow)
    (hval : ∀ nm, (rid, nm) ∈ regions → validName nm = false) :
    total_planets planets regions =
      total_planets (planets.filter (fun p => !(p.regionID == some rid))) regions := by
  induction planets with
  | nil => rfl
  | cons p l ih =>
    by_cases hp : (p.regionID == some rid) = true
    · have hzero : (regions.filter
          (fun rg => p.regionID == some rg.1 && validName rg.2)).length = 0 := by
        rw [List.length_eq_zero, List.filter_eq_nil_iff]
        intro rg hrg
        by_cases hr : (p.regionID == some rg.1) = true
        · have h1 : p.regionID = some rid := by simpa using hp
          have h2 : p.regionID = some rg.1 := by simpa using hr
          have : rg.1 = rid := by
            rw [h1] at h2
            simpa using h2.symm
          have hv : validName rg.2 = false :=
            hval rg.2 (by
              have : rg = (rid, rg.2) := Prod.ext this rfl
              exact this ▸ hrg)
          simp [hr, hv]
        · simp [hr]
      simp only [total_planets, List.filter_cons, hp, Bool.not_true, if_false,
        List.map_cons, List.sum_cons] at *
      rw [hzero]
      simpa using ih
    · simp only [total_planets, List.filter_cons, hp, Bool.not_false, if_true,
        List.map_cons, List.sum_cons] at *
      rw [ih]

/-- C5: a region whose stored name is NULL, blank after trimming, or
case-insensitively equal to `"no name"` is excluded from `list_regions`
and contributes nothing to `total_regions` (removing its rows changes
neither), while fact rows denormalized under its regionID still count in
the raw, unfiltered `count_planets_region` and contribute nothing to the
region-name-filtered `total_planets`. -/
theorem invalid_region_excluded (regions : List (Int × Option String))
    (planets : List PlanetRow) (rid : Int)
    (hval : ∀ nm, (rid, nm) ∈ regions → validName nm = false) :
    (∀ nm, (rid, nm) ∉ list_regions regions) ∧
    total_regions regions = total_regions (regions.filter (fun r => !(r.1 == rid))) ∧
    count_planets_region planets rid =
      (planets.filter (fun p => p.regionID == some rid)).length ∧
    total_planets planets regions =
      total_planets (planets.filter (fun p => !(p.regionID == some rid))) regions := by
  refine ⟨?_, ?_, rfl, sum_skip_unmatched regions rid planets hval⟩
  · intro nm hm
    have hmem : (rid, nm) ∈ regions.filter (fun r => validName r.2) :=
      (List.perm_insertionSort nameLe _).mem_iff.1 hm
    have := List.mem_filter.1 hmem
    rw [hval nm this.1] at this
    exact absurd this.2 (by simp)
  · unfold total_regions
    rw [filter_valid_drop_key regions rid hval]

/-- Witness for C5: region 5 is named `"No Name"`, region 6 validly;
one planet sits in each. -/
theorem invalid_region_excluded_witness :
    ((5, some "No Name") ∉ list_regions regs5) ∧
    total_regions regs5 = total_regions (regs5.filter (fun r => !(r.1 == 5))) ∧
    count_planets_region [pInNoName, pInDerelik] 5 = 1 ∧
    total_planets [pInNoName, pInDerelik] regs5 =
      total_planets ([pInNoName, pInDerelik].filter
        (fun p => !(p.regionID == some 5))) regs5 := by
  have h := invalid_region_excluded regs5 [pInNoName, pInDerelik] 5 (by
    intro nm hm
    simp only [regs5, List.mem_cons, List.mem_singleton, Prod.mk.injEq] at hm
    rcases hm with ⟨-, h2⟩ | ⟨h1, -⟩ | h
    · subst h2; decide
    · omega
    · exact absurd h (List.not_mem_nil _))
  exact ⟨h.1 (some "No Name"), h.2.1, h.2.2.1.trans (by decide), h.2.2.2⟩

theorem filter_map_replace_eq_nil (l : List (Int × Option String)) (k : Int) (nm : String)
    (h : ∀ r ∈ l, (r.1 == k) = false) :
    (l.map (fun r => if r.1 == k then (k, some nm) else r)).filter
      (fun r => r.1 == k) = [] := by
  induction l with
  | nil => rfl
  | cons a t ih =>
    have ha := h a (List.mem_cons_self a t)
    simp only [List.map_cons, ha, if_false, List.filter_cons, Bool.false_eq_true]
    exact ih (fun r hr => h r (List.mem_cons_of_mem a hr))

theorem map_replace_filter (l : List (Int × Option String)) (k : Int) (nm : String)
    (h1 : (l.filter (fun r => r.1 == k)).length ≤ 1)
    (h2 : l.any (fun r => r.1 == k) = true) :
    (l.map (fun r => if r.1 == k then (k, some nm) else r)).filter
      (fun r => r.1 == k) = [(k, some nm)] := by
  induction l with
  | nil => simp at h2
  | cons a t ih =>
    by_cases ha : (a.1 == k) = true
    · have htail : ∀ r ∈ t, (r.1 == k) = false := by
        intro r hr
        by_contra hc
        have hc' : (r.1 == k) = true := by
          cases hx : (r.1 == k)
          · exact absurd hx hc
          · rfl
        have : 2 ≤ ((a :: t).filter (fun r => r.1 == k)).length := by
          simp only [List.filter_cons, ha, if_true]
          have : r ∈ t.filter (fun r => r.1 == k) := List.mem_filter.2 ⟨hr, hc'⟩
          have := List.length_pos_of_mem this
          simp only [List.length_cons]
          omega
        omega
      simp only [List.map_cons, ha, if_true, List.filter_cons, beq_self_eq_true,
        if_true, filter_map_replace_eq_nil t k nm htail]
    · have h1t : (t.filter (fun r => r.1 == k)).length ≤ 1 := by
        simpa [List.filter_cons, ha] using h1
      have h2t : t.any (fun r => r.1 == k) = true := by
        simpa [List.any_cons, ha] using h2
      simp only [List.map_cons, ha, if_false, List.filter_cons, Bool.false_eq_true,
        ih h1t h2t]

theorem upsert_filter_self (tbl : List (Int × Option String)) (k : Int) (nm : String)
    (h : (tbl.filter (fun r => r.1 == k)).length ≤ 1) :
    (upsertRegion tbl k nm).filter (fun r => r.1 == k) = [(k, some nm)] := by
  unfold upsertRegion
  by_cases hany : tbl.any (fun r => r.1 == k) = true
  · rw [if_pos hany]
    exact map_replace_filter tbl k nm h hany
  · rw [if_neg hany]
    have hall : ∀ r ∈ tbl, (r.1 == k) = false := by
      intro r hr
      cases hx : (r.1 == k)
      · rfl
      · exact absurd (List.any_eq_true.2 ⟨r, hr, hx⟩) hany
    rw [List.filter_append]
    rw [List.filter_eq_nil_iff.2 (fun r hr => by simp [hall r hr])]
    simp

theorem filter_ne_map_replace (l : List (Int × Option String)) (k k' : Int) (nm : String)
    (h : k' ≠ k) :
    (l.map (fun r => if r.1 == k then (k, some nm) else r)).filter
      (fun r => r.1 == k') = l.filter (fun r => r.1 == k') := by
  have hkk' : (k == k') = false := by
    simp only [beq_eq_false_iff_ne, ne_eq]
    exact fun hc => h hc.symm
  induction l with
  | nil => rfl
  | cons a t ih =>
    by_cases hak : (a.1 == k) = true
    · have hak' : (a.1 == k') = false := by
        have : a.1 = k := by simpa using hak
        simp only [this, hkk']
      simp only [List.map_cons, hak, if_true, List.filter_cons, hkk', hak',
        Bool.false_eq_true, if_false]
      exact ih
    · simp only [List.map_cons, hak, if_false, List.filter_cons, Bool.false_eq_true]
      by_cases hak' : (a.1 == k') = true <;> simp only [hak', if_true, if_false,
        Bool.false_eq_true] <;> rw [ih]

theorem upsert_filter_ne (tbl : List (Int × Option String)) (k k' : Int) (nm : String)
    (h : k' ≠ k) :
    (upsertRegion tbl k nm).filter (fun r => r.1 == k') =
      tbl.filter (fun r => r.1 == k') := by
  unfold upsertRegion
  by_cases hany : tbl.any (fun r => r.1 == k) = true
  · rw [if_pos hany]
    exact filter_ne_map_replace tbl k k' nm h
  · rw [if_neg hany]
    rw [List.filter_append]
    have : (k == k') = false := by
      simp only [beq_eq_false_iff_ne, ne_eq]
      exact fun hc => h hc.symm
    simp [this]

theorem foldl_upsert_key (src : List (Int × String)) (tbl : List (Int × Option String))
    (k : Int) (h : (tbl.filter (fun r => r.1 == k)).length ≤ 1) :
    (((src.foldl (fun t kv => upsertRegion t kv.1 kv.2) tbl).filter
        (fun r => r.1 == k)).length ≤ 1) ∧
    ((src.filter (fun kv => kv.1 == k)) = [] →
      (src.foldl (fun t kv => upsertRegion t kv.1 kv.2) tbl).filter
        (fun r => r.1 == k) = tbl.filter (fun r => r.1 == k)) ∧
    (∀ e, (src.filter (fun kv => kv.1 == k)).getLast? = some e →
      (src.foldl (fun t kv => upsertRegion t kv.1 kv.2) tbl).filter
        (fun r => r.1 == k) = [(k, some e.2)]) := by
  induction src generalizing tbl with
  | nil =>
    refine ⟨h, fun _ => rfl, fun e he => ?_⟩
    simp [List.getLast?] at he
  | cons kv rest ih =>
    simp only [List.foldl_cons]
    by_cases hkv : (kv.1 == k) = true
    · have hkeq : kv.1 = k := by simpa using hkv
      have hup : (upsertRegion tbl kv.1 kv.2).filter (fun r => r.1 == k) =
          [(k, some kv.2)] := by
        rw [hkeq]
        exact upsert_filter_self tbl k kv.2 h
      have hle : ((upsertRegion tbl kv.1 kv.2).filter
          (fun r => r.1 == k)).length ≤ 1 := by
        rw [hup]; simp
      obtain ⟨ih1, ih2, ih3⟩ := ih (upsertRegion tbl kv.1 kv.2) hle
      refine ⟨ih1, ?_, ?_⟩
      · intro hnil
        rw [List.filter_cons, if_pos hkv] at hnil
        exact absurd hnil (List.cons_ne_nil kv _)
      · intro e he
        rw [List.filter_cons, if_pos hkv] at he
        rcases hrest : rest.filter (fun kv => kv.1 == k) with _ | ⟨b, t⟩
        · rw [hrest] at he
          simp only [List.getLast?_singleton, Option.some.injEq] at he
          rw [ih2 hrest, hup, ← he]
        · rw [hrest] at he
          rw [List.getLast?_cons_cons] at he
          exact ih3 e (hrest ▸ he)
    · have hkne : kv.1 ≠ k := by simpa using hkv
      have hup : (upsertRegion tbl kv.1 kv.2).filter (fun r => r.1 == k) =
          tbl.filter (fun r => r.1 == k) :=
        upsert_filter_ne tbl kv.1 k kv.2 (fun hc => hkne hc.symm)
      have hle : ((upsertRegion tbl kv.1 kv.2).filter
          (fun r => r.1 == k)).length ≤ 1 := by
        rw [hup]; exact h
      obtain ⟨ih1, ih2, ih3⟩ := ih (upsertRegion tbl kv.1 kv.2) hle
      refine ⟨ih1, ?_, ?_⟩
      · intro hnil
        rw [List.filter_cons, if_neg (by simp [hkv])] at hnil
        rw [ih2 hnil, hup]
      · intro e he
        rw [List.filter_cons, if_neg (by simp [hkv])] at he
        exact ih3 e he

/-- C7: reference-table import upserts by primary key.  Starting from a
table with at most one row for a key, the imported table again has at
most one row for that key; if any accepted source row carries the key,
the stored row is the LAST such occurrence, replaced in place; if none
does, the key's rows are untouched; and the region listing returns no
duplicate entry for the key. -/
theorem region_upsert_last_wins (tbl : List (Int × Option String))
    (src : List RegionSrcRow) (k : Int)
    (h : (tbl.filter (fun r => r.1 == k)).length ≤ 1) :
    (((import_csv_mapRegions tbl src).filter (fun r => r.1 == k)).length ≤ 1) ∧
    (∀ e, ((src.filterMap parseRegionRow).filter (fun kv => kv.1 == k)).getLast? = some e →
      (import_csv_mapRegions tbl src).filter (fun r => r.1 == k) = [(k, some e.2)]) ∧
    (((src.filterMap parseRegionRow).filter (fun kv => kv.1 == k)) = [] →
      (import_csv_mapRegions tbl src).filter (fun r => r.1 == k) =
        tbl.filter (fun r => r.1 == k)) ∧
    (((list_regions (import_csv_mapRegions tbl src)).filter
        (fun r => r.1 == k)).length ≤ 1) := by
  obtain ⟨h1, h2, h3⟩ := foldl_upsert_key (src.filterMap parseRegionRow) tbl k h
  refine ⟨h1, h3, h2, ?_⟩
  have hperm : List.Perm
      ((list_regions (import_csv_mapRegions tbl src)).filter (fun r => r.1 == k))
      (((import_csv_mapRegions tbl src).filter (fun r => validName r.2)).filter
        (fun r => r.1 == k)) :=
    (List.perm_insertionSort nameLe _).filter _
  rw [hperm.length_eq]
  calc (((import_csv_mapRegions tbl src).filter (fun r => validName r.2)).filter
          (fun r => r.1 == k)).length
      ≤ ((import_csv_mapRegions tbl src).filter (fun r => r.1 == k)).length :=
        List.Sublist.length_le (List.Sublist.filter _ (List.filter_sublist _))
    _ ≤ 1 := h1

/-- Witness for C7: importing region 10000002 as `"Metropolis"` and then
`"Metropolis Prime"` leaves exactly one row, carrying the updated name. -/
theorem region_upsert_last_wins_witness :
    (import_csv_mapRegions [] metSrc).filter (fun r => r.1 == 10000002) =
      [(10000002, some "Metropolis Prime")] ∧
    ((list_regions (import_csv_mapRegions [] metSrc)).filter
      (fun r => r.1 == 10000002)).length ≤ 1 := by
  have h := region_upsert_last_wins [] metSrc 10000002 (by decide)
  exact ⟨h.2.1 (10000002, "Metropolis Prime") (by decide), h.2.2.2⟩

/-- C10: the region import silently skips, at ingest time, any source row
whose derived region name (`regionName`, falling back to the `name`
column) is missing or empty, even when its regionID is valid, leaving the
table unchanged; the constellation and solar-system imports, by contrast,
store rows whose name is missing, and the constellation listing applies
its name filter only at query time, returning only validly named rows. -/
theorem import_name_policies (tbl : List (Int × Option String)) (r : RegionSrcRow)
    (tblC : List (Int × Int × Option String)) (rc : ConstSrcRow)
    (rs : SystemSrcRow) (c rg s : Int)
    (hname : pyOr r.regionName r.name = none ∨ pyOr r.regionName r.name = some "")
    (hc1 : rc.constellationID = some c) (hc2 : rc.regionID = some rg)
    (hs1 : rs.solarSystemID = some s) (hs2 : rs.constellationID = some c) :
    parseRegionRow r = none ∧
    import_csv_mapRegions tbl [r] = tbl ∧
    parseConstRow rc = some (c, rg, pyOr rc.constellationName rc.name) ∧
    import_csv_mapConstellations tblC [rc] =
      upsertConst tblC (c, rg, pyOr rc.constellationName rc.name) ∧
    parseSystemRow rs = some (s, c, pyOr rs.solarSystemName rs.name) ∧
    (∀ tbl2 rid, ∀ e ∈ constellations_in_region tbl2 rid, validName e.2 = true) := by
  have hreg : parseRegionRow r = none := by
    unfold parseRegionRow
    rcases hname with hn | hn <;> rw [hn] <;> cases r.regionID <;> simp
  have hconst : parseConstRow rc = some (c, rg, pyOr rc.constellationName rc.name) := by
    unfold parseConstRow
    rw [hc1, hc2]
  refine ⟨hreg, ?_, hconst, ?_, ?_, ?_⟩
  · simp [import_csv_mapRegions, List.filterMap_cons, hreg]
  · simp [import_csv_mapConstellations, List.filterMap_cons, hconst]
  · unfold parseSystemRow
    rw [hs1, hs2]
  · intro tbl2 rid e he
    rcases List.mem_map.1 he with ⟨x, hx, hxe⟩
    have hx2 : x ∈ tbl2.filter (fun cc => cc.2.1 == rid && validName cc.2.2) :=
      (List.perm_insertionSort constNameLe _).mem_iff.1 hx
    have := (List.mem_filter.1 hx2).2
    simp only [Bool.and_eq_true] at this
    rw [← hxe]
    exact this.2

/-- Witness for C10 at concrete unnamed region, constellation and system
rows. -/
theorem import_name_policies_witness :
    parseRegionRow noNameRegionRow = none ∧
    import_csv_mapRegions [] [noNameRegionRow] = [] ∧
    parseConstRow noNameConstRow = some (20000099, 10000099, none) ∧
    parseSystemRow someSystemRow = some (30000099, 20000099, none) := by
  have h := import_name_policies [] noNameRegionRow [] noNameConstRow someSystemRow
    20000099 10000099 30000099 (Or.inl (by decide)) rfl rfl rfl rfl
  exact ⟨h.1, h.2.1, h.2.2.1, h.2.2.2.2.1⟩
